import Mathlib

/-
  Verification development for the AI-Integrated-Investment-Tool backend.

  Shallow embedding of the numeric analytics pipeline:
  - threshold store (services/thresholds.py, services/analysis/thresholds.py)
  - scorecard builder (app2.py: verdict / mk_score)
  - industry aggregation (app2.py: analyze_industry;
    services/analysis/industry.py: IndustryAnalyzer)
  - metrics calculator (utils/finance2.py: cagr, split_first_last,
    build_historical_roe)
  - ROE time-series engine (services/roe.py: prepare_roe_data, flag_outliers)

  Python floats are modelled as rationals where the code only uses field and
  order operations, and as reals where powers or square roots occur.  Absence
  (None) is modelled by Option.  Dates are modelled as integers.
-/

namespace IBBack

/-- Verdict strings used across the scorecard code. -/
inductive Verdict where
  | green
  | amber
  | red
deriving DecidableEq

/-- The five threshold keys of DEFAULT_THRESHOLDS in services/thresholds.py. -/
inductive TKey where
  | rev_cagr_min
  | op_margin_min
  | nd_eq_max
  | interest_cover_min
  | roe_min
deriving DecidableEq

/-- DEFAULT_THRESHOLDS from services/thresholds.py (same values appear in
services/analysis/thresholds.py and app2.py). -/
def DEFAULT_THRESHOLDS : TKey → ℚ
  | .rev_cagr_min => 5/100
  | .op_margin_min => 10/100
  | .nd_eq_max => 1
  | .interest_cover_min => 4
  | .roe_min => 10/100

/-- String keys recognised by the merge loop: the test "k in out" of
merge_thresholds, where out starts as a copy of DEFAULT_THRESHOLDS. -/
def keyOfString : String → Option TKey
  | "rev_cagr_min" => some .rev_cagr_min
  | "op_margin_min" => some .op_margin_min
  | "nd_eq_max" => some .nd_eq_max
  | "interest_cover_min" => some .interest_cover_min
  | "roe_min" => some .roe_min
  | _ => none

/-- An override dictionary value: numeric (int or float, accepted by the
isinstance check) or anything else (rejected). -/
inductive OverrideVal where
  | num (q : ℚ)
  | nonNum
deriving DecidableEq

/-- The for-loop of merge_thresholds in services/thresholds.py: starting from a
base mapping, each (k, v) entry with k a known key and v numeric overwrites
that key; all other entries are skipped. -/
def applyOverrides (base : TKey → ℚ) : List (String × OverrideVal) → TKey → ℚ
  | [] => base
  | kv :: rest =>
    match keyOfString kv.1, kv.2 with
    | some tk, .num q => applyOverrides (fun k => if k = tk then q else base k) rest
    | _, _ => applyOverrides base rest

/-- merge_thresholds from services/thresholds.py (identical logic in
services/analysis/thresholds.py): defaults updated by the override entries. -/
def merge_thresholds (overrides : List (String × OverrideVal)) : TKey → ℚ :=
  applyOverrides DEFAULT_THRESHOLDS overrides

/-- The last numeric override supplied for a known key, if any. -/
def lastNumericOverride : List (String × OverrideVal) → TKey → Option ℚ
  | [], _ => none
  | kv :: rest, k =>
    match lastNumericOverride rest k with
    | some q => some q
    | none =>
      match keyOfString kv.1, kv.2 with
      | some tk, .num q => if tk = k then some q else none
      | _, _ => none

theorem applyOverrides_eq (ov : List (String × OverrideVal)) (base : TKey → ℚ)
    (k : TKey) :
    applyOverrides base ov k =
      match lastNumericOverride ov k with
      | some q => q
      | none => base k := by
  induction ov generalizing base with
  | nil => rfl
  | cons kv rest ih =>
    rcases kv with ⟨s, v⟩
    cases hk : keyOfString s with
    | none =>
      cases v <;>
        simp only [applyOverrides, lastNumericOverride, hk, ih] <;>
        cases lastNumericOverride rest k <;> rfl
    | some tk =>
      cases v with
      | nonNum =>
        simp only [applyOverrides, lastNumericOverride, hk, ih]
        cases lastNumericOverride rest k <;> rfl
      | num q =>
        simp only [applyOverrides, lastNumericOverride, hk, ih]
        cases lastNumericOverride rest k with
        | some q2 => rfl
        | none =>
          by_cases hkk : tk = k
          · subst hkk; simp
          · simp [hkk, Ne.symm hkk]

/-- Claim C9: threshold merging replaces a default only for a known key whose
value is numeric (the last such entry wins), retains the default when no
numeric override for the key exists (in particular for unknown keys and
non-numeric values), and is idempotent: applying the same override set to an
already-merged result changes nothing. -/
theorem C9_merge_thresholds :
    (∀ ov k, lastNumericOverride ov k = none →
      merge_thresholds ov k = DEFAULT_THRESHOLDS k) ∧
    (∀ ov k q, lastNumericOverride ov k = some q →
      merge_thresholds ov k = q) ∧
    (∀ ov, applyOverrides (merge_thresholds ov) ov = merge_thresholds ov) := by
  refine ⟨?_, ?_, ?_⟩
  · intro ov k h
    rw [merge_thresholds, applyOverrides_eq, h]
  · intro ov k q h
    rw [merge_thresholds, applyOverrides_eq, h]
  · intro ov
    funext k
    rw [applyOverrides_eq]
    cases h : lastNumericOverride ov k with
    | none => rfl
    | some q => rw [merge_thresholds, applyOverrides_eq, h]

/-- Witness for C9 at a concrete override set containing a known numeric entry,
an unknown key, and a known key with a non-numeric value. -/
theorem C9_merge_thresholds_witness :
    lastNumericOverride
        [("rev_cagr_min", .num (7/100)), ("bogus_key", .num 1),
         ("roe_min", .nonNum)] TKey.roe_min = none ∧
    merge_thresholds
        [("rev_cagr_min", .num (7/100)), ("bogus_key", .num 1),
         ("roe_min", .nonNum)] TKey.roe_min = 10/100 ∧
    lastNumericOverride
        [("rev_cagr_min", .num (7/100)), ("bogus_key", .num 1),
         ("roe_min", .nonNum)] TKey.rev_cagr_min = some (7/100) ∧
    merge_thresholds
        [("rev_cagr_min", .num (7/100)), ("bogus_key", .num 1),
         ("roe_min", .nonNum)] TKey.rev_cagr_min = 7/100 := by
  have h1 : lastNumericOverride
      [("rev_cagr_min", .num (7/100)), ("bogus_key", .num 1),
       ("roe_min", .nonNum)] TKey.roe_min = none := by
    simp [lastNumericOverride, keyOfString]
  have h2 : lastNumericOverride
      [("rev_cagr_min", .num (7/100)), ("bogus_key", .num 1),
       ("roe_min", .nonNum)] TKey.rev_cagr_min = some (7/100) := by
    simp [lastNumericOverride, keyOfString]
  refine ⟨h1, ?_, h2, ?_⟩
  · exact (C9_merge_thresholds.1 _ _ h1).trans (by simp [DEFAULT_THRESHOLDS])
  · exact C9_merge_thresholds.2.1 _ _ _ h2

/-- Comparison mode of a metric: the mode argument of the verdict helper in
app2.py, which is the string ">=" or "<=". -/
inductive Mode where
  | ge
  | le
deriving DecidableEq

/-- The detail text produced by the verdict helper in app2.py, modelled
structurally: either the fixed string "Insufficient data", or the formatted
comparison text carrying the value and the threshold, or the industry
aggregation text carrying the average score. -/
inductive Detail where
  | insufficient
  | comparison (val threshold : ℚ)
  | average (avg : ℚ)
  | passCount (green total : ℕ)
deriving DecidableEq

/-- ScoreItem from models/schemas2.py: id, label, verdict plus optional
detail, value, threshold and unit. -/
structure ScoreItem where
  id : String
  label : String
  verdict : Verdict
  detail : Option Detail := none
  value : Option ℚ := none
  threshold : Option ℚ := none
  unit : Option String := none
deriving DecidableEq

/-- The verdict helper defined inside analyze_company in app2.py: an absent
value yields amber with the fixed insufficient-data detail; a present value is
compared against the threshold in the fixed direction, green when the
comparison holds and red otherwise. -/
def verdict (val : Option ℚ) (threshold : ℚ) (mode : Mode) : Verdict × Detail :=
  match val with
  | none => (.amber, .insufficient)
  | some v =>
    match mode with
    | .ge => (if v ≥ threshold then .green else .red, .comparison v threshold)
    | .le => (if v ≤ threshold then .green else .red, .comparison v threshold)

/-- mk_score from app2.py: runs verdict and normalises value and threshold to
the display unit (times 100 for the pct unit). -/
def mk_score (id_ label : String) (val : Option ℚ) (thr : ℚ) (mode : Mode)
    (unit : Option String) : ScoreItem :=
  let vd := verdict val thr mode
  let vnum : Option ℚ :=
    match val with
    | some x => if unit = some "pct" then some (x * 100) else some x
    | none => none
  let tnum : ℚ := if unit = some "pct" then thr * 100 else thr
  { id := id_, label := label, verdict := vd.1, detail := some vd.2,
    value := vnum, threshold := some tnum, unit := unit }

/-- The five-item scorecard list built in analyze_company in app2.py. -/
def app2_scorecard (rev_cagr op_margin nd_to_eq interest_cover roe : Option ℚ)
    (thresh : TKey → ℚ) : List ScoreItem :=
  [ mk_score "rev_cagr" "Revenue growth (CAGR)" rev_cagr
      (thresh .rev_cagr_min) .ge (some "pct"),
    mk_score "op_margin" "Operating margin" op_margin
      (thresh .op_margin_min) .ge (some "pct"),
    mk_score "nd_eq" "Net debt / Equity" nd_to_eq
      (thresh .nd_eq_max) .le (some "x"),
    mk_score "int_cover" "Interest coverage" interest_cover
      (thresh .interest_cover_min) .ge (some "x"),
    mk_score "roe" "ROE" roe
      (thresh .roe_min) .ge (some "pct") ]

/-- Claim C1: when all five metric values are absent, every Score Item of the
scorecard has verdict amber, the fixed insufficient-data detail and no numeric
value, for every threshold set. -/
theorem C1_absent_metric_amber (thresh : TKey → ℚ) (s : ScoreItem)
    (hs : s ∈ app2_scorecard none none none none none thresh) :
    s.verdict = .amber ∧ s.detail = some .insufficient ∧ s.value = none := by
  simp only [app2_scorecard, List.mem_cons, List.not_mem_nil, or_false] at hs
  rcases hs with h | h | h | h | h <;> subst h <;> exact ⟨rfl, rfl, rfl⟩

/-- Witness for C1: the first item of the all-absent scorecard under default
thresholds. -/
theorem C1_absent_metric_amber_witness :
    (mk_score "rev_cagr" "Revenue growth (CAGR)" none
        (DEFAULT_THRESHOLDS .rev_cagr_min) .ge (some "pct")
      ∈ app2_scorecard none none none none none DEFAULT_THRESHOLDS) ∧
    (mk_score "rev_cagr" "Revenue growth (CAGR)" none
        (DEFAULT_THRESHOLDS .rev_cagr_min) .ge (some "pct")).verdict = .amber ∧
    (mk_score "rev_cagr" "Revenue growth (CAGR)" none
        (DEFAULT_THRESHOLDS .rev_cagr_min) .ge (some "pct")).detail =
      some .insufficient ∧
    (mk_score "rev_cagr" "Revenue growth (CAGR)" none
        (DEFAULT_THRESHOLDS .rev_cagr_min) .ge (some "pct")).value = none := by
  have hmem : mk_score "rev_cagr" "Revenue growth (CAGR)" none
      (DEFAULT_THRESHOLDS .rev_cagr_min) .ge (some "pct")
      ∈ app2_scorecard none none none none none DEFAULT_THRESHOLDS :=
    List.mem_cons_self _ _
  exact ⟨hmem, C1_absent_metric_amber DEFAULT_THRESHOLDS _ hmem⟩

/-- Claim C5: a present metric value exactly equal to its threshold yields
verdict green, both in the greater-or-equal mode used for CAGR, margin,
coverage and ROE, and in the less-or-equal mode used for net debt to equity:
the boundary is inclusive in both directions. -/
theorem C5_threshold_boundary_green (t : ℚ) :
    (verdict (some t) t .ge).1 = .green ∧ (verdict (some t) t .le).1 = .green := by
  constructor <;> simp [verdict]

/-- score_to_num from analyze_industry in app2.py: green 2, amber 1, red 0.
The dictionary lookup defaults to 1 only for strings outside the three
verdicts, which the Verdict type excludes. -/
def score_to_num : Verdict → ℚ
  | .green => 2
  | .amber => 1
  | .red => 0

/-- The five aggregation labels of analyze_industry in app2.py. -/
def indLabels : List String :=
  ["Revenue growth (CAGR)", "Operating margin", "Net debt / Equity",
   "Interest coverage", "ROE"]

/-- One step of the inner loop of analyze_industry in app2.py, projected onto
a single label: an item with that label adds its ordinal score to the running
sum and bumps the count; other items leave the accumulator unchanged.  In the
source the loop condition tests membership of the item label in the label
dictionary; for a fixed label of that dictionary the entry is updated exactly
when the item label equals it. -/
def innerStep (label : String) (acc : ℚ × ℕ) (s : ScoreItem) : ℚ × ℕ :=
  if s.label = label then (acc.1 + score_to_num s.verdict, acc.2 + 1) else acc

/-- The double loop of analyze_industry in app2.py accumulating, for one
label, the sum of ordinal scores and the count of constituents that produced
that label. -/
def aggregate_label (comps : List (List ScoreItem)) (label : String) : ℚ × ℕ :=
  comps.foldl (fun acc c => c.foldl (innerStep label) acc) (0, 0)

/-- The verdicts produced for a label by the constituent scorecards, in
roster order. -/
def verdictsFor (comps : List (List ScoreItem)) (label : String) : List Verdict :=
  comps.flatten.filterMap
    (fun s => if s.label = label then some s.verdict else none)

/-- Re-bucketing of the average score in analyze_industry in app2.py. -/
def bucket (avg : ℚ) : Verdict :=
  if avg ≥ 3/2 then .green else if avg ≥ 1 then .amber else .red

/-- Aggregate item id: label lower-cased with spaces replaced by
underscores, as in analyze_industry in app2.py. -/
def labelToId (label : String) : String := (label.toLower).replace " " "_"

/-- The aggregate scorecard of analyze_industry in app2.py: per label, skip
when no constituent produced it, otherwise average the ordinal scores and
re-bucket. -/
def industry_scorecard (comps : List (List ScoreItem)) : List ScoreItem :=
  indLabels.filterMap (fun label =>
    let sc := aggregate_label comps label
    if sc.2 = 0 then none
    else
      let avg : ℚ := sc.1 / (sc.2 : ℚ)
      some { id := labelToId label, label := label, verdict := bucket avg,
             detail := some (.average avg) })

/-- The average ordinal score over exactly the constituents that produced the
label. -/
def avgScore (comps : List (List ScoreItem)) (label : String) : ℚ :=
  ((verdictsFor comps label).map score_to_num).sum /
    ((verdictsFor comps label).length : ℚ)

theorem inner_foldl (label : String) (c : List ScoreItem) (acc : ℚ × ℕ) :
    c.foldl (innerStep label) acc =
      (acc.1 + ((c.filterMap
          (fun s => if s.label = label then some s.verdict else none)).map
            score_to_num).sum,
       acc.2 + (c.filterMap
          (fun s => if s.label = label then some s.verdict else none)).length) := by
  induction c generalizing acc with
  | nil => simp
  | cons s t ih =>
    by_cases h : s.label = label
    · simp only [List.foldl_cons, innerStep, h, if_true, ih,
        List.filterMap_cons, eq_self_iff_true, List.map_cons, List.sum_cons,
        List.length_cons]
      exact Prod.ext (by ring) (by omega)
    · simp only [List.foldl_cons, innerStep, h, if_false, ih,
        List.filterMap_cons]

theorem outer_foldl (label : String) (comps : List (List ScoreItem))
    (acc : ℚ × ℕ) :
    comps.foldl (fun acc c => c.foldl (innerStep label) acc) acc =
      (acc.1 + ((verdictsFor comps label).map score_to_num).sum,
       acc.2 + (verdictsFor comps label).length) := by
  induction comps generalizing acc with
  | nil => simp [verdictsFor]
  | cons c t ih =>
    rw [List.foldl_cons, ih, inner_foldl]
    simp only [verdictsFor, List.flatten_cons, List.filterMap_append,
      List.map_append, List.sum_append, List.length_append]
    exact Prod.ext (by ring) (by omega)

theorem aggregate_label_eq (comps : List (List ScoreItem)) (label : String) :
    aggregate_label comps label =
      (((verdictsFor comps label).map score_to_num).sum,
       (verdictsFor comps label).length) := by
  rw [aggregate_label, outer_foldl]
  simp

/-- The four-constituent example of the spec: one shared label with verdicts
green, green, red, red. -/
def comps4 : List (List ScoreItem) :=
  [[{ id := "rev_cagr", label := "Revenue growth (CAGR)", verdict := .green }],
   [{ id := "rev_cagr", label := "Revenue growth (CAGR)", verdict := .green }],
   [{ id := "rev_cagr", label := "Revenue growth (CAGR)", verdict := .red }],
   [{ id := "rev_cagr", label := "Revenue growth (CAGR)", verdict := .red }]]

/-- Claim C2: for every label produced by at least one constituent the
aggregate scorecard contains the item whose verdict re-buckets the average
ordinal score (green 2, amber 1, red 0) over exactly the constituents that
produced the label, green when the average is at least 3/2, amber when at
least 1, red otherwise; and four constituents with verdicts green, green,
red, red on one label average to 1 and aggregate to amber. -/
theorem C2_industry_reduction :
    (∀ comps label, label ∈ indLabels → verdictsFor comps label ≠ [] →
      ({ id := labelToId label, label := label,
         verdict := bucket (avgScore comps label),
         detail := some (.average (avgScore comps label)) } : ScoreItem)
        ∈ industry_scorecard comps) ∧
    (industry_scorecard comps4).map (fun s => (s.label, s.verdict)) =
      [("Revenue growth (CAGR)", Verdict.amber)] ∧
    avgScore comps4 "Revenue growth (CAGR)" = 1 := by
  have key : ∀ comps label, verdictsFor comps label ≠ [] →
      (fun label =>
        let sc := aggregate_label comps label
        if sc.2 = 0 then none
        else
          let avg : ℚ := sc.1 / (sc.2 : ℚ)
          (some { id := labelToId label, label := label, verdict := bucket avg,
                  detail := some (.average avg) } : Option ScoreItem)) label =
      some { id := labelToId label, label := label,
             verdict := bucket (avgScore comps label),
             detail := some (.average (avgScore comps label)) } := by
    intro comps label hne
    have hlen : (verdictsFor comps label).length ≠ 0 := by
      simpa [List.length_eq_zero] using hne
    simp only [aggregate_label_eq, hlen, if_false, avgScore]
  refine ⟨?_, ?_, ?_⟩
  · intro comps label hlab hne
    exact List.mem_filterMap.mpr ⟨label, hlab, key comps label hne⟩
  · have h1 : verdictsFor comps4 "Revenue growth (CAGR)" =
        [.green, .green, .red, .red] := by
      simp [verdictsFor, comps4]
    have havg : avgScore comps4 "Revenue growth (CAGR)" = 1 := by
      rw [avgScore, h1]
      norm_num [score_to_num]
    have hagg1 : aggregate_label comps4 "Revenue growth (CAGR)" = (4, 4) := by
      rw [aggregate_label_eq, h1]
      norm_num [score_to_num]
    have hrest : ∀ label, label ∈ indLabels.tail →
        aggregate_label comps4 label = (0, 0) := by
      intro label hlab
      rw [aggregate_label_eq]
      have : verdictsFor comps4 label = [] := by
        fin_cases hlab <;> simp [verdictsFor, comps4]
      rw [this]
      simp
    rw [industry_scorecard]
    simp only [indLabels, List.filterMap_cons, hagg1]
    norm_num [bucket]
    have h2 := hrest "Operating margin" (by simp [indLabels])
    have h3 := hrest "Net debt / Equity" (by simp [indLabels])
    have h4 := hrest "Interest coverage" (by simp [indLabels])
    have h5 := hrest "ROE" (by simp [indLabels])
    simp [h2, h3, h4, h5]
  · have h1 : verdictsFor comps4 "Revenue growth (CAGR)" =
        [.green, .green, .red, .red] := by
      simp [verdictsFor, comps4]
    rw [avgScore, h1]
    norm_num [score_to_num]

/-- Witness for C2 at the four-constituent example. -/
theorem C2_industry_reduction_witness :
    ("Revenue growth (CAGR)" ∈ indLabels) ∧
    (verdictsFor comps4 "Revenue growth (CAGR)" ≠ []) ∧
    ({ id := labelToId "Revenue growth (CAGR)",
       label := "Revenue growth (CAGR)",
       verdict := bucket (avgScore comps4 "Revenue growth (CAGR)"),
       detail := some (.average (avgScore comps4 "Revenue growth (CAGR)")) }
        : ScoreItem) ∈ industry_scorecard comps4 := by
  refine ⟨by simp [indLabels], ?_, ?_⟩
  · simp [verdictsFor, comps4]
  · exact C2_industry_reduction.1 comps4 "Revenue growth (CAGR)"
      (by simp [indLabels]) (by simp [verdictsFor, comps4])

/-- The three aggregation labels of IndustryAnalyzer._quick_scorecard in
services/analysis/industry.py. -/
def quickLabels : List String := ["Revenue growth", "Operating margin", "ROE"]

/-- One step of the counting loop of _quick_scorecard, projected onto a single
label: an item with that label bumps the total, and the green count as well
when its verdict is green. -/
def quickStep (label : String) (acc : ℕ × ℕ) (s : ScoreItem) : ℕ × ℕ :=
  if s.label = label then
    if s.verdict = .green then (acc.1 + 1, acc.2 + 1) else (acc.1, acc.2 + 1)
  else acc

/-- IndustryAnalyzer._quick_scorecard from services/analysis/industry.py:
empty input yields an empty scorecard; otherwise, per label with a positive
total, the fraction of green verdicts is re-bucketed (at least 6/10 green, at
least 3/10 amber, otherwise red). -/
def quick_scorecard (companies : List (List ScoreItem)) : List ScoreItem :=
  if companies = [] then []
  else
    quickLabels.filterMap (fun label =>
      let gt := companies.foldl (fun acc c => c.foldl (quickStep label) acc)
        ((0, 0) : ℕ × ℕ)
      if 0 < gt.2 then
        let pct : ℚ := (gt.1 : ℚ) / (gt.2 : ℚ)
        some { id := labelToId label, label := label,
               verdict := if pct ≥ 6/10 then .green
                          else if pct ≥ 3/10 then .amber else .red,
               detail := some (.passCount gt.1 gt.2) }
      else none)

/-- The response record of IndustryAnalyzer.analyze, restricted to the fields
the aggregation determines: scorecard, source titles and the narrative
bullet texts (valuation is the empty default block in both branches). -/
structure IndustryResponse where
  scorecard : List ScoreItem
  sources : List String
  pros : List String
  cons : List String
  risks : List String
deriving DecidableEq

/-- INDUSTRY_MAP from data/universe2.py. -/
def INDUSTRY_MAP : String → List String
  | "Robotics" => ["ABB", "FANUY", "ROK", "ISRG", "TER", "CGNX", "IRBT"]
  | "Semiconductors" => ["NVDA"]
  | _ => []

/-- IndustryAnalyzer.analyze from services/analysis/industry.py.  The roster
is looked up in the industry map; an empty roster returns the empty response.
Otherwise every constituent is analyzed and failures are skipped (the thread
pool with per-task timeout is modelled as a filterMap over the roster: a none
result stands for a constituent that failed or timed out; the aggregation
counts are order-independent, so completion order does not matter), then the
quick scorecard is aggregated while the sources cite the first three roster
tickers and the narrative bullets are fixed. -/
def industry_analyze (industryMap : String → List String) (industry : String)
    (analyzeCompany : String → Option (List ScoreItem)) : IndustryResponse :=
  let tickers := industryMap industry
  if tickers = [] then
    { scorecard := [], sources := [], pros := [], cons := [], risks := [] }
  else
    let companies := tickers.filterMap analyzeCompany
    { scorecard := quick_scorecard companies,
      sources := (tickers.take 3).map (fun t => "YF-" ++ t),
      pros := ["Secular growth trends in automation"],
      cons := ["Valuation dispersion across peers"],
      risks := ["Supply chain and capex sensitivity"] }

/-- Counterexample to claim C4: with the Robotics roster and every constituent
failing, the scorecard is empty but the sources still cite the first three
roster tickers, so the result is not structurally equal to the empty-roster
result, whose sources are empty. -/
theorem C4_counterexample :
    (industry_analyze INDUSTRY_MAP "Robotics" (fun _ => none)).scorecard = [] ∧
    (industry_analyze INDUSTRY_MAP "Robotics" (fun _ => none)).sources =
      ["YF-ABB", "YF-FANUY", "YF-ROK"] ∧
    (industry_analyze INDUSTRY_MAP "Unlisted" (fun _ => none)).sources = [] ∧
    industry_analyze INDUSTRY_MAP "Robotics" (fun _ => none) ≠
      industry_analyze INDUSTRY_MAP "Unlisted" (fun _ => none) := by
  refine ⟨rfl, rfl, rfl, ?_⟩
  intro h
  have := congrArg IndustryResponse.sources h
  simp [industry_analyze, INDUSTRY_MAP] at this

/-- Claim C4 as amended: when every constituent fails, the analyzer does not
raise and returns an empty scorecard exactly as for an empty roster, but its
sources still cite the first three roster tickers (and the narrative bullets
stay fixed), so only the scorecard, not the whole structure, matches the
empty-roster result. -/
theorem C4_all_fail_empty_scorecard (industryMap : String → List String)
    (industry : String) (analyzeCompany : String → Option (List ScoreItem))
    (hfail : ∀ t, analyzeCompany t = none) :
    (industry_analyze industryMap industry analyzeCompany).scorecard = [] ∧
    (industry_analyze industryMap industry analyzeCompany).sources =
      ((industryMap industry).take 3).map (fun t => "YF-" ++ t) := by
  have hnil : (industryMap industry).filterMap analyzeCompany = [] :=
    List.filterMap_eq_nil_iff.mpr (fun a _ => hfail a)
  by_cases h : industryMap industry = []
  · simp [industry_analyze, h]
  · simp [industry_analyze, h, hnil, quick_scorecard]

/-- Witness for the amended C4 at the Robotics roster with every constituent
failing. -/
theorem C4_all_fail_empty_scorecard_witness :
    ((fun _ : String => (none : Option (List ScoreItem))) "ABB" = none) ∧
    (industry_analyze INDUSTRY_MAP "Robotics" (fun _ => none)).scorecard = [] ∧
    (industry_analyze INDUSTRY_MAP "Robotics" (fun _ => none)).sources =
      ((INDUSTRY_MAP "Robotics").take 3).map (fun t => "YF-" ++ t) := by
  exact ⟨rfl,
    C4_all_fail_empty_scorecard INDUSTRY_MAP "Robotics" (fun _ => none)
      (fun _ => rfl)⟩

/-- split_first_last from utils/finance2.py: absent series, a non-positive
lookback or a series of fewer than 2 observations yield absent; otherwise the
window is clamped to the minimum of the lookback and the series length minus
one, and the values at the positions window plus one from the end and at the
end are returned together with the window.  The source returns a triple of
Nones in the absent cases and returns the values via positional indexing
whose exceptions cannot fire in range; here the in-range lookups are done by
get?. -/
def split_first_last (series : Option (List ℚ)) (years : ℤ) :
    Option (ℚ × ℚ × ℤ) :=
  match series with
  | none => none
  | some s =>
    if years ≤ 0 then none
    else if s.length < 2 then none
    else
      let n : ℤ := min years ((s.length : ℤ) - 1)
      match s.get? (s.length - 1 - n.toNat), s.get? (s.length - 1) with
      | some first_val, some last_val => some (first_val, last_val, n)
      | _, _ => none

/-- Claim C6: for a series of at least 2 observations and a requested lookback
of at least 1 year, split_first_last clamps the window to the minimum of the
lookback and the length minus one and returns the values at the positions
window plus one from the end and at the end together with the window; a series
of fewer than 2 observations yields absent; and a length-4 series with a
10-year request uses window 3. -/
theorem C6_windowed_first_last :
    (∀ (s : List ℚ) (years : ℤ), 1 ≤ years → 2 ≤ s.length →
      ∃ fv lv,
        s.get? (s.length - 1 - (min years ((s.length : ℤ) - 1)).toNat) =
          some fv ∧
        s.get? (s.length - 1) = some lv ∧
        split_first_last (some s) years =
          some (fv, lv, min years ((s.length : ℤ) - 1))) ∧
    (∀ (s : List ℚ) (years : ℤ), s.length < 2 →
      split_first_last (some s) years = none) ∧
    split_first_last (some [10, 20, 30, 40]) 10 = some (10, 40, 3) := by
  refine ⟨?_, ?_, ?_⟩
  · intro s years h1 h2
    have hy : ¬ years ≤ 0 := by omega
    have hl : ¬ s.length < 2 := by omega
    have hidx1 : s.length - 1 - (min years ((s.length : ℤ) - 1)).toNat <
        s.length := by omega
    have hidx2 : s.length - 1 < s.length := by omega
    refine ⟨s.get ⟨_, hidx1⟩, s.get ⟨_, hidx2⟩,
      List.get?_eq_get hidx1, List.get?_eq_get hidx2, ?_⟩
    rw [split_first_last]
    simp only [hy, if_false, hl, List.get?_eq_get hidx1,
      List.get?_eq_get hidx2]
  · intro s years h
    rcases le_or_lt years 0 with hy | hy
    · simp [split_first_last, hy]
    · have : ¬ years ≤ 0 := by omega
      simp [split_first_last, this, h]
  · rfl

/-- Witness for C6 at the length-4 series with a 10-year lookback and at a
length-1 series. -/
theorem C6_windowed_first_last_witness :
    (1 ≤ (10 : ℤ)) ∧ (2 ≤ ([10, 20, 30, 40] : List ℚ).length) ∧
    (∃ fv lv,
      ([10, 20, 30, 40] : List ℚ).get?
          (([10, 20, 30, 40] : List ℚ).length - 1 -
            (min 10 ((([10, 20, 30, 40] : List ℚ).length : ℤ) - 1)).toNat) =
        some fv ∧
      ([10, 20, 30, 40] : List ℚ).get?
          (([10, 20, 30, 40] : List ℚ).length - 1) = some lv ∧
      split_first_last (some [10, 20, 30, 40]) 10 =
        some (fv, lv, min 10 ((([10, 20, 30, 40] : List ℚ).length : ℤ) - 1))) ∧
    (([7] : List ℚ).length < 2) ∧
    split_first_last (some ([7] : List ℚ)) 10 = none := by
  refine ⟨by norm_num, by norm_num, ?_, by norm_num, ?_⟩
  · exact C6_windowed_first_last.1 [10, 20, 30, 40] 10 (by norm_num)
      (by norm_num)
  · exact C6_windowed_first_last.2.1 [7] 10 (by norm_num)

/-- The dates (index) of a fiscal series, modelled as a list of
(date, value) pairs with integer dates. -/
def seriesDates (s : List (ℤ × ℚ)) : List ℤ := s.map Prod.fst

/-- The aligned dates of build_historical_roe in utils/finance2.py: the dates
of the net-income series that also occur in the equity series, sorted
ascending. -/
def common_dates (ni eqty : List (ℤ × ℚ)) : List ℤ :=
  List.insertionSort (fun a b => a ≤ b)
    ((seriesDates ni).filter (fun d => (seriesDates eqty).contains d))

/-- build_historical_roe from utils/finance2.py.  Absent input series yield an
empty output, as do fewer than 2 aligned dates.  Otherwise, for each aligned
date after the first, the average of the current and prior equity is taken
and, when it is nonzero, net income over average equity times 100 is emitted.
A requested lookback then keeps only the dates within that many date units of
the last item (the source subtracts a year offset from the last timestamp;
dates are modelled as integers, values as rationals, so the NaN skips of the
source cannot fire). -/
def build_historical_roe (net_income equity : Option (List (ℤ × ℚ)))
    (years : Option ℤ) : List (ℤ × ℚ) :=
  match net_income, equity with
  | some ni, some eqty =>
    let common := common_dates ni eqty
    if common.length < 2 then []
    else
      let items : List (ℤ × ℚ) :=
        (common.zip common.tail).filterMap (fun pd =>
          match List.lookup pd.2 ni, List.lookup pd.1 eqty,
              List.lookup pd.2 eqty with
          | some ni_val, some eq_prev, some eq_cur =>
            let avg_eq := (eq_prev + eq_cur) / 2
            if avg_eq = 0 then none
            else some (pd.2, ni_val / avg_eq * 100)
          | _, _, _ => none)
      match years with
      | some y =>
        if y = 0 then items
        else
          match items.getLast? with
          | some lastIt => items.filter (fun it => lastIt.1 - y ≤ it.1)
          | none => items
      | none => items
  | _, _ => []

/-- Claim C7: when the intersection of the periods of the net-income and
equity series contains fewer than 2 dates, build_historical_roe returns the
empty series rather than an error; in particular two series sharing exactly
one common period yield an empty output. -/
theorem C7_roe_alignment_empty :
    (∀ (ni eqty : List (ℤ × ℚ)) (years : Option ℤ),
      (common_dates ni eqty).length < 2 →
      build_historical_roe (some ni) (some eqty) years = []) ∧
    (common_dates [(2020, 10), (2021, 12)] [(2021, 5), (2022, 6)]).length
      = 1 ∧
    (∀ years, build_historical_roe (some [(2020, 10), (2021, 12)])
      (some [(2021, 5), (2022, 6)]) years = []) := by
  have hmain : ∀ (ni eqty : List (ℤ × ℚ)) (years : Option ℤ),
      (common_dates ni eqty).length < 2 →
      build_historical_roe (some ni) (some eqty) years = [] := by
    intro ni eqty years h
    simp [build_historical_roe, h]
  have hone : (common_dates [(2020, 10), (2021, 12)]
      [(2021, 5), (2022, 6)]).length = 1 := by decide
  exact ⟨hmain, hone, fun years => hmain _ _ years (by rw [hone]; omega)⟩

/-- Witness for C7 at the two series sharing exactly one common period. -/
theorem C7_roe_alignment_empty_witness :
    (common_dates [(2020, 10), (2021, 12)] [(2021, 5), (2022, 6)]).length
      < 2 ∧
    build_historical_roe (some [(2020, 10), (2021, 12)])
      (some [(2021, 5), (2022, 6)]) none = [] := by
  have h : (common_dates [(2020, 10), (2021, 12)]
      [(2021, 5), (2022, 6)]).length < 2 := by decide
  exact ⟨h, C7_roe_alignment_empty.1 _ _ none h⟩

/-- An input row of prepare_roe_data in services/roe.py: the date, ticker and
roe columns, each possibly missing (dropped by dropna). -/
structure RoeRawRow where
  date : Option ℤ
  ticker : Option String
  roe : Option ℚ

/-- An output row of prepare_roe_data: the retained columns plus the
clamped_flag and roe_clamped columns it assigns. -/
structure RoeRow where
  date : ℤ
  ticker : String
  roe : ℚ
  clamped_flag : Bool
  roe_clamped : ℚ
deriving DecidableEq

/-- The fields of RoeConfig in services/roe.py that prepare_roe_data reads
(start and end are named startDate and endDate since end is reserved). -/
structure RoeConfig where
  tickers : Option (List String) := none
  startDate : Option ℤ := none
  endDate : Option ℤ := none
  clamp_min : ℚ := -200
  clamp_max : ℚ := 200

/-- The sort order of sort_values on ticker then date. -/
def rowLe (a b : ℤ × String × ℚ) : Prop :=
  a.2.1 < b.2.1 ∨ (a.2.1 = b.2.1 ∧ a.1 ≤ b.1)

instance : DecidableRel rowLe := fun a b => by
  unfold rowLe
  infer_instance

/-- drop_duplicates on the (date, ticker) pair keeping the first occurrence. -/
def dedupKeys : List (ℤ × String × ℚ) → List (ℤ × String) →
    List (ℤ × String × ℚ)
  | [], _ => []
  | r :: rest, seen =>
    if (r.1, r.2.1) ∈ seen then dedupKeys rest seen
    else r :: dedupKeys rest ((r.1, r.2.1) :: seen)

/-- prepare_roe_data from services/roe.py: drop rows with a missing date,
ticker or roe, filter by the optional ticker list (an empty list, being
falsy, filters nothing) and the optional date bounds, drop duplicate
(date, ticker) rows keeping the first, sort by ticker then date, and assign
the clamped_flag and roe_clamped columns from the clamp band. -/
def prepare_roe_data (df : List RoeRawRow) (cfg : RoeConfig) : List RoeRow :=
  let rows0 : List (ℤ × String × ℚ) := df.filterMap (fun r =>
    match r.date, r.ticker, r.roe with
    | some d, some t, some v => some (d, t, v)
    | _, _, _ => none)
  let rows1 := match cfg.tickers with
    | some ts => if ts = [] then rows0
                 else rows0.filter (fun r => ts.contains r.2.1)
    | none => rows0
  let rows2 := match cfg.startDate with
    | some sd => rows1.filter (fun r => sd ≤ r.1)
    | none => rows1
  let rows3 := match cfg.endDate with
    | some ed => rows2.filter (fun r => r.1 ≤ ed)
    | none => rows2
  let rows4 := dedupKeys rows3 []
  let rows5 := List.insertionSort rowLe rows4
  rows5.map (fun r =>
    { date := r.1, ticker := r.2.1, roe := r.2.2,
      clamped_flag := decide (r.2.2 < cfg.clamp_min) ||
        decide (cfg.clamp_max < r.2.2),
      roe_clamped := min cfg.clamp_max (max cfg.clamp_min r.2.2) })

/-- Claim C10: for a configuration whose clamp band is non-degenerate, every
output row of prepare_roe_data has its clamped value inside the band, and the
clamped flag is set exactly when the raw value lies strictly outside the
band. -/
theorem C10_clamp_band (df : List RoeRawRow) (cfg : RoeConfig)
    (hband : cfg.clamp_min ≤ cfg.clamp_max) :
    ∀ r ∈ prepare_roe_data df cfg,
      cfg.clamp_min ≤ r.roe_clamped ∧ r.roe_clamped ≤ cfg.clamp_max ∧
      (r.clamped_flag = true ↔
        (r.roe < cfg.clamp_min ∨ cfg.clamp_max < r.roe)) := by
  intro r hr
  simp only [prepare_roe_data, List.mem_map] at hr
  obtain ⟨a, ha, rfl⟩ := hr
  refine ⟨le_min hband (le_max_left _ _), min_le_left _ _, ?_⟩
  simp [Bool.or_eq_true, decide_eq_true_eq]

/-- Witness for C10 at a one-row frame whose raw value 300 exceeds the default
band, under the default configuration. -/
theorem C10_clamp_band_witness :
    ({} : RoeConfig).clamp_min ≤ ({} : RoeConfig).clamp_max ∧
    (⟨1, "A", 300, true, 200⟩ : RoeRow) ∈
      prepare_roe_data [⟨some 1, some "A", some 300⟩] {} ∧
    ({} : RoeConfig).clamp_min ≤ (⟨1, "A", 300, true, 200⟩ : RoeRow).roe_clamped ∧
    (⟨1, "A", 300, true, 200⟩ : RoeRow).roe_clamped ≤ ({} : RoeConfig).clamp_max ∧
    ((⟨1, "A", 300, true, 200⟩ : RoeRow).clamped_flag = true ↔
      ((⟨1, "A", 300, true, 200⟩ : RoeRow).roe < ({} : RoeConfig).clamp_min ∨
        ({} : RoeConfig).clamp_max < (⟨1, "A", 300, true, 200⟩ : RoeRow).roe)) := by
  have hband : ({} : RoeConfig).clamp_min ≤ ({} : RoeConfig).clamp_max := by
    norm_num [RoeConfig.clamp_min, RoeConfig.clamp_max]
  have hmem : (⟨1, "A", 300, true, 200⟩ : RoeRow) ∈
      prepare_roe_data [⟨some 1, some "A", some 300⟩] {} := by
    simp only [prepare_roe_data, List.filterMap, dedupKeys,
      List.insertionSort, List.map, List.mem_singleton]
    norm_num [min_def, max_def]
  exact ⟨hband, hmem,
    C10_clamp_band [⟨some 1, some "A", some 300⟩] {} hband _ hmem⟩

/-- cagr from utils/finance2.py: absent when any argument is absent, the
first value is non-positive or the year count is non-positive, otherwise the
compound annual growth rate.  Floats are modelled as reals and the float
power as the real power Real.rpow. -/
noncomputable def cagr (first last years : Option ℝ) : Option ℝ :=
  match first, last, years with
  | some f, some l, some n =>
    if f ≤ 0 ∨ n ≤ 0 then none else some (Real.rpow (l / f) (1 / n) - 1)
  | _, _, _ => none

/-- Claim C3: cagr returns the growth rate formula for a positive first value
and positive year count with both endpoints present, and absent whenever the
first value or the year count is non-positive or an argument is absent; with
the four particular values of the spec. -/
theorem C3_cagr :
    (∀ f l n : ℝ, 0 < f → 0 < n →
      cagr (some f) (some l) (some n) =
        some (Real.rpow (l / f) (1 / n) - 1)) ∧
    (∀ f l n : ℝ, f ≤ 0 → cagr (some f) (some l) (some n) = none) ∧
    (∀ f l n : ℝ, n ≤ 0 → cagr (some f) (some l) (some n) = none) ∧
    (∀ l n : ℝ, cagr none (some l) (some n) = none) ∧
    (∀ f n : ℝ, cagr (some f) none (some n) = none) ∧
    (∀ f l : ℝ, cagr (some f) (some l) none = none) ∧
    cagr (some 100) (some 200) (some 1) = some 1 ∧
    cagr (some 100) (some 100) (some 5) = some 0 ∧
    cagr (some 0) (some 200) (some 5) = none ∧
    cagr (some 100) (some 200) (some 0) = none := by
  refine ⟨?_, ?_, ?_, fun l n => rfl, fun f n => rfl, fun f l => rfl,
    ?_, ?_, ?_, ?_⟩
  · intro f l n h1 h2
    rw [cagr, if_neg]
    push_neg
    exact ⟨h1, h2⟩
  · intro f l n h
    rw [cagr, if_pos (Or.inl h)]
  · intro f l n h
    rw [cagr, if_pos (Or.inr h)]
  · rw [cagr, if_neg (by norm_num)]
    norm_num [Real.rpow_one]
  · rw [cagr, if_neg (by norm_num)]
    norm_num [Real.one_rpow]
  · rw [cagr, if_pos (Or.inl (by norm_num))]
  · rw [cagr, if_pos (Or.inr (by norm_num))]

/-- Witness for C3 at first 100, last 400, 2 years. -/
theorem C3_cagr_witness :
    (0 : ℝ) < 100 ∧ (0 : ℝ) < 2 ∧
    cagr (some 100) (some 400) (some 2) =
      some (Real.rpow ((400 : ℝ) / 100) (1 / 2) - 1) := by
  exact ⟨by norm_num, by norm_num,
    C3_cagr.1 100 400 2 (by norm_num) (by norm_num)⟩

/-- The per-group mean of flag_outliers in services/roe.py. -/
noncomputable def listMean (xs : List ℝ) : ℝ := xs.sum / xs.length

/-- The per-group population standard deviation (ddof 0) of flag_outliers in
services/roe.py. -/
noncomputable def popStd (xs : List ℝ) : ℝ :=
  Real.sqrt ((xs.map (fun x => (x - listMean xs) ^ 2)).sum / xs.length)

/-- The Python-or fallback in flag_outliers: a zero standard deviation is
replaced by 1e-9 before dividing. -/
noncomputable def sigmaOrEps (s : ℝ) : ℝ := if s = 0 then 1e-9 else s

/-- The z-score column of flag_outliers in services/roe.py, computed against
the full-series group mean and standard deviation of the clamped values. -/
noncomputable def zscore (xs : List ℝ) (x : ℝ) : ℝ :=
  (x - listMean xs) / sigmaOrEps (popStd xs)

/-- flag_outliers from services/roe.py, for one entity group: each clamped
observation is paired with its z-score and the flag that its absolute z-score
exceeds 3.  The rolling columns of the frame are not consulted. -/
noncomputable def flag_outliers (xs : List ℝ) : List (ℝ × Prop) :=
  xs.map (fun x => (zscore xs x, |zscore xs x| > 3))

/-- Claim C8: for an entity whose clamped series has positive population
standard deviation, an observation is flagged exactly when its absolute
z-score against the full-series mean and standard deviation exceeds 3, which
is exactly when its clamped value lies more than 3 standard deviations from
the entity mean; and each observation contributes exactly that pair to the
flag_outliers output. -/
theorem C8_outlier_iff (xs : List ℝ) (x : ℝ) (hstd : 0 < popStd xs) :
    (|zscore xs x| > 3 ↔ |x - listMean xs| > 3 * popStd xs) ∧
    (x ∈ xs → (zscore xs x, |zscore xs x| > 3) ∈ flag_outliers xs) := by
  constructor
  · have hne : popStd xs ≠ 0 := ne_of_gt hstd
    rw [zscore, sigmaOrEps, if_neg hne, abs_div, abs_of_pos hstd,
      gt_iff_lt, gt_iff_lt, lt_div_iff₀ hstd, mul_comm]
  · intro hx
    exact List.mem_map.mpr ⟨x, hx, rfl⟩

/-- Witness for C8 at the two-observation series with values -1 and 1, whose
population standard deviation is 1, at the observation 1. -/
theorem C8_outlier_iff_witness :
    0 < popStd [(-1 : ℝ), 1] ∧
    ((|zscore [(-1 : ℝ), 1] 1| > 3 ↔
        |1 - listMean [(-1 : ℝ), 1]| > 3 * popStd [(-1 : ℝ), 1]) ∧
      ((1 : ℝ) ∈ [(-1 : ℝ), 1] →
        (zscore [(-1 : ℝ), 1] 1, |zscore [(-1 : ℝ), 1] 1| > 3) ∈
          flag_outliers [(-1 : ℝ), 1])) := by
  have hm : listMean [(-1 : ℝ), 1] = 0 := by
    norm_num [listMean]
  have hstd : popStd [(-1 : ℝ), 1] = 1 := by
    rw [popStd, hm]
    norm_num
  have hpos : 0 < popStd [(-1 : ℝ), 1] := by
    rw [hstd]
    norm_num
  exact ⟨hpos, C8_outlier_iff [(-1 : ℝ), 1] 1 hpos⟩

end IBBack
